import Mathlib

/-!
Shallow embedding of `pokebase/interface.py` (the lazy-loading resource
proxy and id/name resolution core) and proofs about it.

Conventions of the embedding:
* Python exceptions are modelled with `Except PyErr`; a `.error` value is a
  raised exception propagating out of the modelled call.
* Python dictionaries are association lists `List (String × Value)` with
  first-occurrence lookup (`List.lookup`); real dictionaries have unique
  keys, which the construction sites here preserve.
* `str.split("/")` is `pySplitSlash`, a character-level split that agrees
  with Python for a one-character separator (empty pieces kept, `"".split`
  gives one empty piece).
* Python negative indexing `xs[-k]` is `pyNegIdx xs k`, raising
  (returning `none`, turned into an IndexError at use sites) when the list
  is shorter than `k`.
* Python `int(s)` is `pyInt` (decimal digits with optional minus sign);
  `none` is a raised ValueError.  The two differ only on exotic strings
  (surrounding whitespace, a leading plus, underscore separators), none of
  which matter to the statements below.
* The external collaborators `get_resource` and `get_data`, and the
  `BASE_URL` constant from the `common` module, are supplied by an `Env`
  record, matching the contract the spec gives for the transport layer.
-/

/-- A JSON value as served by the remote API. -/
inductive JSON where
  | null : JSON
  | bool : Bool → JSON
  | num : Int → JSON
  | str : String → JSON
  | list : List JSON → JSON
  | dict : List (String × JSON) → JSON
deriving Repr

/-- Whether a JSON value is a mapping (Python `isinstance(d, dict)`). -/
def JSON.isDict : JSON → Bool
  | .dict _ => true
  | _ => false

/-- The Python exceptions the modelled code can raise. -/
inductive PyErr where
  | attributeError : String → PyErr
  | valueError : PyErr
  | indexError : PyErr
  | external : String → PyErr
deriving Repr, DecidableEq

/-- Result of a modelled Python call: a value or a raised exception. -/
abbrev Py (α : Type) : Type := Except PyErr α

/-- Run-time values held in instance dictionaries: plain JSON data, a
`NamedAPIResource` instance (its `__dict__` and its loaded flag), an
`APIMetadata` instance (its `__dict__`), or a list whose elements were
individually converted by `_make_obj` during a load. -/
inductive Value where
  | json : JSON → Value
  | ref : List (String × Value) → Bool → Value
  | meta : List (String × Value) → Value
  | vlist : List Value → Value
deriving Repr

/-- One raw entry of a category listing, shaped `{name?: string, url: string}`
as the transport contract specifies: `url` always present, `name` optional. -/
structure Entry where
  name : Option String
  url : String
deriving Repr, DecidableEq

/-- The raw category listing response `{results, count}` of `get_resource`. -/
structure ListingResponse where
  results : List Entry
  count : Int
deriving Repr

/-- The external collaborators of the core: the transport functions
`get_resource` and `get_data` and the ambient base-url constant.  `get_data`
receives the run-time values stored under `resource_type` and `id_`. -/
structure Env where
  baseUrl : String
  resource : String → Py ListingResponse
  data : Value → Value → Py (List (String × JSON))

/-- Python negative indexing `xs[-k]`, as an `Option` (`none` = IndexError). -/
def pyNegIdx {α : Type} (xs : List α) (k : Nat) : Option α :=
  if k = 0 then xs.get? 0 else xs.reverse.get? (k - 1)

/-- The solidus character, written via its code point to stay free of
character-literal syntax. -/
def slashChar : Char := Char.ofNat 47

/-- Split a character list at every solidus, keeping empty pieces, exactly
as Python `str.split` does for a one-character separator. -/
def splitSlashChars : List Char → List (List Char)
  | [] => [[]]
  | c :: rest =>
    let r := splitSlashChars rest
    if c = slashChar then [] :: r
    else
      match r with
      | [] => [[c]]
      | piece :: pieces => (c :: piece) :: pieces

/-- Python `url.split("/")`. -/
def pySplitSlash (s : String) : List String :=
  (splitSlashChars s.data).map fun cs => String.mk cs

/-- Fold decimal digits into a number; any non-digit character means the
whole string is rejected. -/
def parseDigits : List Char → Nat → Option Nat
  | [], acc => some acc
  | c :: rest, acc =>
    if c.isDigit then parseDigits rest (acc * 10 + (c.toNat - 48)) else none

/-- Python `int(s)` on an optionally minus-signed decimal numeral; `none`
models the ValueError raised on anything else.  (Python additionally strips
whitespace and accepts a leading plus and underscore separators; no
statement below depends on such inputs.) -/
def pyInt (s : String) : Option Int :=
  match s.data with
  | [] => none
  | c :: rest =>
    if c = Char.ofNat 45 then
      match rest with
      | [] => none
      | _ => (parseDigits rest 0).map fun n => -(n : Int)
    else (parseDigits s.data 0).map fun n => (n : Int)

/-- The `[-2]` path piece of a url after splitting on `"/"` — the position
the source reads ids and derived names from. -/
def urlIdSegment (url : String) : Option String :=
  pyNegIdx (pySplitSlash url) 2

/-- The `[-3]` path piece of a url after splitting on `"/"` — the position
`_make_obj` reads the category from. -/
def urlLocationSegment (url : String) : Option String :=
  pyNegIdx (pySplitSlash url) 3

/-- One step of Python `dict.update`: replace the value at an existing key
in place, otherwise append the pair at the end. -/
def pyDictInsert (d : List (String × Value)) (kv : String × Value) :
    List (String × Value) :=
  if (d.map Prod.fst).contains kv.1 then
    d.map fun p => if p.1 = kv.1 then (p.1, kv.2) else p
  else d ++ [kv]

/-- Python `d.update(new)` on association lists with unique keys. -/
def pyDictUpdate (d new : List (String × Value)) : List (String × Value) :=
  new.foldl pyDictInsert d

/-- `class APIResourceList`: category name, the raw `results` entries, and
the reported total `count`. -/
structure APIResourceList where
  name : String
  results : List Entry
  count : Int

/-- `APIResourceList.__init__`: one `get_resource` fetch, storing the raw
entries and the count. -/
def apiResourceListInit (env : Env) (name : String) : Py APIResourceList :=
  match env.resource name with
  | .error e => .error e
  | .ok response => .ok ⟨name, response.results, response.count⟩

/-- `APIResourceList.__len__`: returns the stored `count` field. -/
def APIResourceList.len (rl : APIResourceList) : Int :=
  rl.count

/-- `APIResourceList.names`: for each entry, in listing order,
`result.get("name", result["url"].split("/")[-2])`.  Python evaluates the
default argument eagerly, so the `[-2]` indexing runs — and can raise —
even when the entry has a `name` field. -/
def namesGo : List Entry → Py (List String)
  | [] => .ok []
  | result :: rest =>
    match urlIdSegment result.url with
    | none => .error .indexError
    | some derived =>
      match namesGo rest with
      | .error e => .error e
      | .ok ns => .ok (result.name.getD derived :: ns)

/-- The generator of `APIResourceList.names` as the finite list it yields
(or the exception that interrupts it). -/
def APIResourceList.namesSeq (rl : APIResourceList) : Py (List String) :=
  namesGo rl.results

/-- The loop of `_convert_id_to_name`: first entry whose url `[-2]` piece
equals `str(id_)`; on a match return `resource.get("name", None)`; falling
off the loop returns `None`. -/
def scanIdToName : List Entry → Int → Py (Option String)
  | [], _ => .ok none
  | resource :: rest, id_ =>
    match urlIdSegment resource.url with
    | none => .error .indexError
    | some s =>
      if s = toString id_ then .ok resource.name
      else scanIdToName rest id_

/-- The loop of `_convert_name_to_id`: first entry whose `name` field equals
the string; on a match return `int(resource.get("url").split("/")[-2])`;
falling off the loop returns `None`. -/
def scanNameToId : List Entry → String → Py (Option Int)
  | [], _ => .ok none
  | resource :: rest, name =>
    if resource.name = some name then
      match urlIdSegment resource.url with
      | none => .error .indexError
      | some s =>
        match pyInt s with
        | none => .error .valueError
        | some i => .ok (some i)
    else scanNameToId rest name

/-- `_convert_id_to_name(resource_type, id_)`: fetch the category index and
scan it by id segment. -/
def _convert_id_to_name (env : Env) (resource_type : String) (id_ : Int) :
    Py (Option String) :=
  match apiResourceListInit env resource_type with
  | .error e => .error e
  | .ok resource_data => scanIdToName resource_data.results id_

/-- `_convert_name_to_id(resource_type, name)`: fetch the category index and
scan it by name. -/
def _convert_name_to_id (env : Env) (resource_type : String) (name : String) :
    Py (Option Int) :=
  match apiResourceListInit env resource_type with
  | .error e => .error e
  | .ok resource_data => scanNameToId resource_data.results name

/-- The two run-time types `name_id_convert` accepts: a Python `int` or a
Python `str`. -/
abbrev NameOrId : Type := Int ⊕ String

/-- `name_id_convert(resource_type, name_or_id)`: an integer is taken as the
id and the name is looked up (possibly `None`); a string is taken as the
name and the id is looked up (possibly `None`). -/
def name_id_convert (env : Env) (resource_type : String)
    (name_or_id : NameOrId) : Py (Option String × Option Int) :=
  match name_or_id with
  | .inl id_ =>
    match _convert_id_to_name env resource_type id_ with
    | .error e => .error e
    | .ok name => .ok (name, some id_)
  | .inr name =>
    match _convert_name_to_id env resource_type name with
    | .error e => .error e
    | .ok id_ => .ok (some name, id_)

/-- Python `str(x)` for the resolved id slot, which holds an int or `None`. -/
def pyStrOfOptInt : Option Int → String
  | some i => toString i
  | none => "None"

/-- The stored value of the `name` attribute: a string or `None`. -/
def valueOfOptStr : Option String → Value
  | some s => .json (.str s)
  | none => .json .null

/-- The stored value of the `id_` attribute: an int or `None`. -/
def valueOfOptInt : Option Int → Value
  | some i => .json (.num i)
  | none => .json .null

/-- The part of `NamedAPIResource.__init__` before any load: resolve
`(name, id_)`, build the canonical url, and fill the instance dictionary
with the four construction-time attributes. -/
def namedAPIResourceInitAttrs (env : Env) (resource_type : String)
    (resource_name : NameOrId) : Py (List (String × Value)) :=
  match name_id_convert env resource_type resource_name with
  | .error e => .error e
  | .ok (name, id_) =>
    let url := String.intercalate "/" [env.baseUrl, resource_type, pyStrOfOptInt id_]
    .ok [("name", valueOfOptStr name),
         ("resource_type", .json (.str resource_type)),
         ("id_", valueOfOptInt id_),
         ("url", .json (.str url))]

mutual

/-- `_make_obj(d)`: a non-dict is returned unchanged (lists included); a
dict with a `url` key becomes a lazy `NamedAPIResource(location, id_)`
where `id_ = url.split("/")[-2]` (still a string) and
`location = url.split("/")[-3]`; any other dict becomes `APIMetadata(d)`. -/
def _make_obj (env : Env) : JSON → Py Value
  | .dict d =>
    match List.lookup "url" d with
    | some (.str url) =>
      match urlIdSegment url, urlLocationSegment url with
      | some id_, some location =>
        match namedAPIResourceInitAttrs env location (.inr id_) with
        | .error e => .error e
        | .ok attrs => .ok (.ref attrs false)
      | _, _ => .error .indexError
    | some _ =>
      -- d["url"] is not a string, so ".split" raises AttributeError.
      .error (.attributeError "split")
    | none =>
      match convMetaFields env d with
      | .error e => .error e
      | .ok fields => .ok (.meta fields)
  | j => .ok (.json j)

/-- The loop of `APIMetadata.__init__`: each dict-valued field is replaced
by `_make_obj`; every other field, list-valued ones included, is stored
unchanged. -/
def convMetaFields (env : Env) : List (String × JSON) → Py (List (String × Value))
  | [] => .ok []
  | (k, .dict d) :: rest =>
    match _make_obj env (.dict d) with
    | .error e => .error e
    | .ok w =>
      match convMetaFields env rest with
      | .error e => .error e
      | .ok fields => .ok ((k, w) :: fields)
  | (k, v) :: rest =>
    match convMetaFields env rest with
    | .error e => .error e
    | .ok fields => .ok ((k, .json v) :: fields)

end

/-- `_make_obj` applied to each element of a list-valued field, as the load
loop of `NamedAPIResource._load` does. -/
def makeObjList (env : Env) : List JSON → Py (List Value)
  | [] => .ok []
  | v :: rest =>
    match _make_obj env v with
    | .error e => .error e
    | .ok w =>
      match makeObjList env rest with
      | .error e => .error e
      | .ok ws => .ok (w :: ws)

/-- The conversion loop of `NamedAPIResource._load`: dict-valued fields go
through `_make_obj`, list-valued fields are converted element-wise, every
other field is kept as plain data. -/
def loadConvertFields (env : Env) : List (String × JSON) → Py (List (String × Value))
  | [] => .ok []
  | (k, v) :: rest =>
    match
      (match v with
       | .dict d => _make_obj env (.dict d)
       | .list xs =>
         match makeObjList env xs with
         | .error e => .error e
         | .ok ws => .ok (.vlist ws)
       | other => .ok (.json other)) with
    | .error e => .error e
    | .ok w =>
      match loadConvertFields env rest with
      | .error e => .error e
      | .ok fields => .ok ((k, w) :: fields)

/-- `NamedAPIResource._load`, as a function from the instance dictionary to
the instance dictionary after the load.  The source reads
`self.resource_type` and `self.id_`, calls `get_data`, converts the payload
fields in a local dict, and only then mutates the instance, in one final
`self.__dict__.update(data)`; so a raise anywhere in the body leaves the
instance dictionary untouched, which here is simply an `.error` result.
(Reading a missing `resource_type` or `id_` would in CPython re-enter
`__getattr__` and recurse; construction always sets both, and the model
raises an AttributeError in that unreachable corner.) -/
def namedAPIResourceLoad (env : Env) (attrs : List (String × Value)) :
    Py (List (String × Value)) :=
  match List.lookup "resource_type" attrs with
  | none => .error (.attributeError "resource_type")
  | some rt =>
    match List.lookup "id_" attrs with
    | none => .error (.attributeError "id_")
    | some idv =>
      match env.data rt idv with
      | .error e => .error e
      | .ok data =>
        match loadConvertFields env data with
        | .error e => .error e
        | .ok converted => .ok (pyDictUpdate attrs converted)

/-- A `NamedAPIResource` instance: its `__dict__` and its private
`__loaded` flag. -/
structure NamedAPIResource where
  attrs : List (String × Value)
  loaded : Bool
deriving Repr

/-- `NamedAPIResource.__init__(resource_type, resource_name, lazy_load)`:
resolve and store the construction attributes with `loaded = False`; when
`lazy_load` is false, run `_load` at once and set the flag. -/
def mkNamedAPIResource (env : Env) (resource_type : String)
    (resource_name : NameOrId) (lazy_load : Bool) : Py NamedAPIResource :=
  match namedAPIResourceInitAttrs env resource_type resource_name with
  | .error e => .error e
  | .ok attrs =>
    if lazy_load then .ok ⟨attrs, false⟩
    else
      match namedAPIResourceLoad env attrs with
      | .error e => .error e
      | .ok attrs2 => .ok ⟨attrs2, true⟩

/-- Attribute access on a `NamedAPIResource`, with the final instance state
returned alongside the outcome (Python exceptions do not roll back earlier
mutations).  Normal lookup serves anything already in `__dict__`; otherwise
`__getattr__` runs: an unloaded instance loads, sets the flag, and retries
the lookup, raising AttributeError naming the attribute when it is still
missing; a loaded instance raises that AttributeError at once.  A raise
inside `_load` leaves the instance exactly as it was. -/
def pyGetattr (env : Env) (r : NamedAPIResource) (attr : String) :
    Py Value × NamedAPIResource :=
  match List.lookup attr r.attrs with
  | some v => (.ok v, r)
  | none =>
    if r.loaded then (.error (.attributeError attr), r)
    else
      match namedAPIResourceLoad env r.attrs with
      | .error e => (.error e, r)
      | .ok attrs2 =>
        match List.lookup attr attrs2 with
        | some v => (.ok v, ⟨attrs2, true⟩)
        | none => (.error (.attributeError attr), ⟨attrs2, true⟩)

/-- An `APIMetadata` instance: its `__dict__`. -/
structure APIMetadata where
  attrs : List (String × Value)
deriving Repr

/-- `APIMetadata.__init__(data)`: convert the dict-valued fields and store
the result as the instance dictionary. -/
def mkAPIMetadata (env : Env) (data : List (String × JSON)) : Py APIMetadata :=
  match convMetaFields env data with
  | .error e => .error e
  | .ok fields => .ok ⟨fields⟩

/-! ### Concrete test fixtures (the berry scenario of the spec) -/

/-- The berry category listing of the spec scenario. -/
def berryIndex : List Entry :=
  [⟨some "cheri", "https://pokeapi.co/api/v2/berry/1/"⟩,
   ⟨some "chesto", "https://pokeapi.co/api/v2/berry/2/"⟩]

/-- An environment serving the berry listing; `get_data` always raises. -/
def bEnv : Env where
  baseUrl := "https://pokeapi.co/api/v2"
  resource := fun t =>
    if t = "berry" then .ok ⟨berryIndex, 2⟩
    else .error (.external "resource not found")
  data := fun _ _ => .error (.external "data not fetched")

/-- The berry-firmness category listing used by the loading fixture. -/
def firmnessIndex : List Entry :=
  [⟨some "soft", "https://pokeapi.co/api/v2/berry-firmness/2/"⟩]

/-- The `get_data("berry", 1)` payload of the spec scenario. -/
def berryOnePayload : List (String × JSON) :=
  [("name", .str "cheri"),
   ("firmness", .dict [("name", .str "soft"),
                       ("url", .str "https://pokeapi.co/api/v2/berry-firmness/2/")]),
   ("flavors", .list [.num 1, .num 2, .num 3])]

/-- An environment that also serves `get_data("berry", 1)`. -/
def dEnv : Env where
  baseUrl := "https://pokeapi.co/api/v2"
  resource := fun t =>
    if t = "berry" then .ok ⟨berryIndex, 2⟩
    else if t = "berry-firmness" then .ok ⟨firmnessIndex, 1⟩
    else .error (.external "resource not found")
  data := fun rt idv =>
    match rt, idv with
    | .json (.str t), .json (.num i) =>
      if t = "berry" ∧ i = 1 then .ok berryOnePayload
      else .error (.external "data not found")
    | _, _ => .error (.external "data not found")

/-- The instance dictionary of the lazy reference for the cheri berry. -/
def cheriAttrs : List (String × Value) :=
  [("name", .json (.str "cheri")),
   ("resource_type", .json (.str "berry")),
   ("id_", .json (.num 1)),
   ("url", .json (.str "https://pokeapi.co/api/v2/berry/1"))]

/-- The lazy, unloaded reference for the cheri berry. -/
def cheriRef : NamedAPIResource := ⟨cheriAttrs, false⟩

/-- The instance dictionary of the nested firmness reference after the
load: the id string "2" went through the resolver as a name, so `id_`
ends up `None`. -/
def firmRefAttrs : List (String × Value) :=
  [("name", .json (.str "2")),
   ("resource_type", .json (.str "berry-firmness")),
   ("id_", .json .null),
   ("url", .json (.str "https://pokeapi.co/api/v2/berry-firmness/None"))]

/-- The instance dictionary of the cheri reference after its load. -/
def loadedCheriAttrs : List (String × Value) :=
  [("name", .json (.str "cheri")),
   ("resource_type", .json (.str "berry")),
   ("id_", .json (.num 1)),
   ("url", .json (.str "https://pokeapi.co/api/v2/berry/1")),
   ("firmness", .ref firmRefAttrs false),
   ("flavors", .vlist [.json (.num 1), .json (.num 2), .json (.num 3)])]

/-- A raw payload with one dict-valued and one list-valued field. -/
def metaFixture : List (String × JSON) :=
  [("firmness", .dict [("name", .str "soft")]),
   ("flavors", .list [.num 1])]

/-- `metaFixture` as `APIMetadata.__init__` converts it: the dict became a
nested metadata object, the list stayed raw JSON. -/
def metaConverted : List (String × Value) :=
  [("firmness", .meta [("name", .json (.str "soft"))]),
   ("flavors", .json (.list [.num 1]))]

/-- `metaFixture` as the load loop converts it: the dict became a nested
metadata object and the list was converted element-wise. -/
def loadConverted : List (String × Value) :=
  [("firmness", .meta [("name", .json (.str "soft"))]),
   ("flavors", .vlist [.json (.num 1)])]

/-- A one-entry index whose id segment "007" is a non-canonical numeral. -/
def zeroPadIndex : List Entry := [⟨some "a", "x/y/007/"⟩]

/-- An environment serving `zeroPadIndex` under the category "cat". -/
def zEnv : Env where
  baseUrl := "base"
  resource := fun t =>
    if t = "cat" then .ok ⟨zeroPadIndex, 1⟩
    else .error (.external "resource not found")
  data := fun _ _ => .error (.external "data not fetched")

/-! ### Resolver lemmas -/

/-- Scanning for a name that no entry carries falls off the loop with `None`. -/
theorem scanNameToId_no_match (idx : List Entry) (nm : String)
    (h : ∀ e ∈ idx, e.name ≠ some nm) : scanNameToId idx nm = .ok none := by
  induction idx with
  | nil => rfl
  | cons e rest ih =>
    rw [scanNameToId, if_neg]
    · exact ih fun e2 h2 => h e2 (List.mem_cons_of_mem _ h2)
    · exact h e (List.mem_cons_self e rest)

/-- Scanning for an id whose string form matches no entry segment falls off
the loop with `None`; every entry must expose a segment for the `[-2]`
indexing not to raise first. -/
theorem scanIdToName_no_match (idx : List Entry) (i : Int)
    (h : ∀ e ∈ idx, ∃ s, urlIdSegment e.url = some s ∧ s ≠ toString i) :
    scanIdToName idx i = .ok none := by
  induction idx with
  | nil => rfl
  | cons e rest ih =>
    obtain ⟨s, hs, hne⟩ := h e (List.mem_cons_self e rest)
    simp only [scanIdToName, hs]
    rw [if_neg hne]
    exact ih fun e2 h2 => h e2 (List.mem_cons_of_mem _ h2)

/-- C5: for every category index and every integer id whose string form
matches no entry's url id segment, resolution does not fail:
`name_id_convert` returns the pair `(None, id)` — the name resolves to null
silently and the id is returned unchanged. -/
theorem resolve_unmatched_id_silent (env : Env) (t : String) (idx : List Entry)
    (c : Int) (i : Int) (hres : env.resource t = .ok ⟨idx, c⟩)
    (hseg : ∀ e ∈ idx, ∃ s, urlIdSegment e.url = some s ∧ s ≠ toString i) :
    name_id_convert env t (.inl i) = .ok (none, some i) := by
  simp only [name_id_convert, _convert_id_to_name, apiResourceListInit, hres,
    scanIdToName_no_match idx i hseg]

/-- Witness for C5 at the berry scenario: `resolve("berry", 99)` gives a
null name and id 99. -/
theorem resolve_unmatched_id_silent_witness :
    bEnv.resource "berry" = .ok ⟨berryIndex, 2⟩ ∧
    name_id_convert bEnv "berry" (.inl 99) = .ok (none, some 99) := by
  refine ⟨rfl, resolve_unmatched_id_silent bEnv "berry" berryIndex 2 99 rfl ?_⟩
  intro e he
  rcases List.mem_cons.mp he with h | he2
  · exact ⟨"1", by rw [h]; rfl, by decide⟩
  rcases List.mem_cons.mp he2 with h | he3
  · exact ⟨"2", by rw [h]; rfl, by decide⟩
  · cases he3

/-- C2 counterexample: resolving the name "pecha", which no berry entry
carries, does NOT fail — it returns `("pecha", None)` — and the triggering
lazy ResourceRef construction still succeeds, producing an unloaded
instance whose `id_` is `None` and whose url ends in "/None". -/
theorem resolve_unmatched_name_counterexample :
    name_id_convert bEnv "berry" (.inr "pecha") = .ok (some "pecha", none) ∧
    mkNamedAPIResource bEnv "berry" (.inr "pecha") true =
      .ok ⟨[("name", .json (.str "pecha")),
            ("resource_type", .json (.str "berry")),
            ("id_", .json .null),
            ("url", .json (.str "https://pokeapi.co/api/v2/berry/None"))],
           false⟩ :=
  ⟨rfl, rfl⟩

/-- C2 (amended): for every category index and every string name matching no
entry, `name_id_convert` returns `(name, None)` with no error, and the
triggering lazy ResourceRef construction succeeds, producing an unloaded
instance with a null `id_`. -/
theorem resolve_unmatched_name_silent (env : Env) (t : String)
    (idx : List Entry) (c : Int) (nm : String)
    (hres : env.resource t = .ok ⟨idx, c⟩)
    (hnm : ∀ e ∈ idx, e.name ≠ some nm) :
    name_id_convert env t (.inr nm) = .ok (some nm, none) ∧
    mkNamedAPIResource env t (.inr nm) true =
      .ok ⟨[("name", .json (.str nm)),
            ("resource_type", .json (.str t)),
            ("id_", .json .null),
            ("url", .json (.str (String.intercalate "/" [env.baseUrl, t, "None"])))],
           false⟩ := by
  have hconv : name_id_convert env t (.inr nm) = .ok (some nm, none) := by
    simp only [name_id_convert, _convert_name_to_id, apiResourceListInit, hres,
      scanNameToId_no_match idx nm hnm]
  refine ⟨hconv, ?_⟩
  simp only [mkNamedAPIResource, namedAPIResourceInitAttrs, hconv]
  rfl

/-- Witness for the amended C2 at the berry scenario. -/
theorem resolve_unmatched_name_silent_witness :
    bEnv.resource "berry" = .ok ⟨berryIndex, 2⟩ ∧
    (∀ e ∈ berryIndex, e.name ≠ some "pecha") ∧
    name_id_convert bEnv "berry" (.inr "pecha") = .ok (some "pecha", none) := by
  refine ⟨rfl, by decide, ?_⟩
  exact (resolve_unmatched_name_silent bEnv "berry" berryIndex 2 "pecha" rfl
    (by decide)).1

/-! ### The Value Converter -/

/-- C7: for every JSON value that is not a mapping — numbers, strings,
booleans, null, and lists — `_make_obj` returns the value itself unchanged;
lists pass through without per-element conversion at this layer. -/
theorem makeObj_non_mapping_identity (env : Env) (j : JSON)
    (h : j.isDict = false) : _make_obj env j = .ok (.json j) := by
  cases j with
  | dict d => simp [JSON.isDict] at h
  | null => rfl
  | bool b => rfl
  | num n => rfl
  | str s => rfl
  | list xs => rfl

/-- Witness for C7 on a concrete list value under the berry environment. -/
theorem makeObj_non_mapping_identity_witness :
    (JSON.list [.num 1, .num 2, .num 3]).isDict = false ∧
    _make_obj bEnv (.list [.num 1, .num 2, .num 3]) =
      .ok (.json (.list [.num 1, .num 2, .num 3])) :=
  ⟨rfl, makeObj_non_mapping_identity bEnv (.list [.num 1, .num 2, .num 3]) rfl⟩

/-- C1, evaluated at its failing input: on `{url: ".../berry/1/"}` the
converter does build an unloaded reference whose `resource_type` is
"berry", but the id string "1" is passed as the `resource_name` argument,
the resolver treats every string as a name, no berry entry is named "1",
and so the reference ends up with `name = "1"`, `id_ = None` and a url
ending in "/None" — not with id 1 as the spec states. -/
theorem makeObj_url_dict_id_is_none :
    _make_obj bEnv (.dict [("url", .str "https://pokeapi.co/api/v2/berry/1/")]) =
      .ok (.ref [("name", .json (.str "1")),
                 ("resource_type", .json (.str "berry")),
                 ("id_", .json .null),
                 ("url", .json (.str "https://pokeapi.co/api/v2/berry/None"))]
            false) :=
  rfl

/-! ### The ResourceRef state machine -/

/-- C3: a lazily constructed `NamedAPIResource` has `loaded = false`; the
four construction-time attributes are present in its dictionary; accessing
any attribute present in the dictionary returns it under every environment
(so no `get_data` call happens) and returns the instance unchanged, loaded
flag included; and whenever an access ends with the loaded flag true, the
accessed attribute was not one set at construction time. -/
theorem lazy_ref_loaded_flag_protocol (env : Env) (t : String) (n : NameOrId)
    (r : NamedAPIResource) (h : mkNamedAPIResource env t n true = .ok r) :
    r.loaded = false ∧
    (∀ a ∈ ["name", "resource_type", "id_", "url"],
        ∃ v, List.lookup a r.attrs = some v) ∧
    (∀ (env2 : Env) (a : String) (v : Value),
        List.lookup a r.attrs = some v → pyGetattr env2 r a = (.ok v, r)) ∧
    (∀ (env2 : Env) (a : String) (res : Py Value) (r2 : NamedAPIResource),
        pyGetattr env2 r a = (res, r2) → r2.loaded = true →
        List.lookup a r.attrs = none) := by
  rcases h2 : namedAPIResourceInitAttrs env t n with e | attrs
  · rw [mkNamedAPIResource, h2] at h; cases h
  rw [mkNamedAPIResource, h2] at h
  simp only [if_true] at h
  cases h
  refine ⟨rfl, ?_, ?_, ?_⟩
  · rcases h3 : name_id_convert env t n with e | p
    · rw [namedAPIResourceInitAttrs, h3] at h2; cases h2
    · rw [namedAPIResourceInitAttrs, h3] at h2
      cases h2
      intro a ha
      fin_cases ha <;> exact ⟨_, rfl⟩
  · intro env2 a v hv
    simp only [pyGetattr, hv]
  · intro env2 a res r2 hga hl
    rcases hv : List.lookup a (NamedAPIResource.mk attrs false).attrs with _ | v
    · rfl
    · rw [pyGetattr] at hga
      simp only [hv] at hga
      cases hga
      cases hl

/-- Witness for C3: the lazy cheri reference is unloaded and serves its
construction-time `id_` without any data fetch or state change. -/
theorem lazy_ref_loaded_flag_protocol_witness :
    mkNamedAPIResource bEnv "berry" (.inr "cheri") true = .ok cheriRef ∧
    cheriRef.loaded = false ∧
    pyGetattr bEnv cheriRef "id_" = (.ok (.json (.num 1)), cheriRef) := by
  refine ⟨rfl,
    (lazy_ref_loaded_flag_protocol bEnv "berry" (.inr "cheri") cheriRef rfl).1,
    ?_⟩
  exact (lazy_ref_loaded_flag_protocol bEnv "berry" (.inr "cheri") cheriRef
    rfl).2.2.1 bEnv "id_" (.json (.num 1)) rfl

/-- C4: accessing an attribute absent from the instance dictionary: on an
unloaded instance the Load transition runs and the access is retried — the
raised AttributeError names the attribute and happens only if it is still
absent after loading; on a loaded instance the same AttributeError is
raised at once, identically under every environment, so `get_data` is
never consulted a second time for the instance. -/
theorem getattr_missing_field (env : Env) (r : NamedAPIResource) (a : String)
    (h : List.lookup a r.attrs = none) :
    (r.loaded = false →
      (∀ e, namedAPIResourceLoad env r.attrs = .error e →
          pyGetattr env r a = (.error e, r)) ∧
      (∀ attrs2, namedAPIResourceLoad env r.attrs = .ok attrs2 →
        (∀ v, List.lookup a attrs2 = some v →
            pyGetattr env r a = (.ok v, ⟨attrs2, true⟩)) ∧
        (List.lookup a attrs2 = none →
            pyGetattr env r a = (.error (.attributeError a), ⟨attrs2, true⟩)))) ∧
    (r.loaded = true →
      ∀ env2 : Env, pyGetattr env2 r a = (.error (.attributeError a), r)) := by
  constructor
  · intro hnl
    constructor
    · intro e he
      simp only [pyGetattr, h, hnl, he, Bool.false_eq_true, if_false]
    · intro attrs2 ha2
      constructor
      · intro v hv
        simp only [pyGetattr, h, hnl, ha2, hv, Bool.false_eq_true, if_false]
      · intro hv
        simp only [pyGetattr, h, hnl, ha2, hv, Bool.false_eq_true, if_false]
  · intro hl env2
    simp only [pyGetattr, h, hl, if_true]

/-- Witness for C4: accessing `flavors` on the unloaded cheri reference
loads it and serves the converted list; accessing a missing `color` on the
loaded instance raises the AttributeError naming it and leaves the
instance as it is. -/
theorem getattr_missing_field_witness :
    List.lookup "flavors" cheriRef.attrs = none ∧
    namedAPIResourceLoad dEnv cheriRef.attrs = .ok loadedCheriAttrs ∧
    pyGetattr dEnv cheriRef "flavors" =
      (.ok (.vlist [.json (.num 1), .json (.num 2), .json (.num 3)]),
       ⟨loadedCheriAttrs, true⟩) ∧
    pyGetattr dEnv ⟨loadedCheriAttrs, true⟩ "color" =
      (.error (.attributeError "color"), ⟨loadedCheriAttrs, true⟩) := by
  refine ⟨rfl, rfl, ?_, ?_⟩
  · exact (((getattr_missing_field dEnv cheriRef "flavors" rfl).1 rfl).2
      loadedCheriAttrs rfl).1 (.vlist [.json (.num 1), .json (.num 2), .json (.num 3)]) rfl
  · exact (getattr_missing_field dEnv ⟨loadedCheriAttrs, true⟩ "color" rfl).2 rfl dEnv

/-- C10: the Load transition is atomic with respect to the instance state.
If anything inside `_load` raises — the `get_data` fetch or a Value
Converter application — the triggering access returns that exception with
the instance dictionary and the loaded flag exactly as they were; and a
successful `_load` is one `get_data` fetch, one conversion pass over the
payload, and a single dictionary update merged at the end. -/
theorem load_atomicity (env : Env) (r : NamedAPIResource) (a : String)
    (hl : List.lookup a r.attrs = none) (hnl : r.loaded = false) :
    (∀ e, namedAPIResourceLoad env r.attrs = .error e →
        pyGetattr env r a = (.error e, r)) ∧
    (∀ attrs2, namedAPIResourceLoad env r.attrs = .ok attrs2 →
      ∃ rt idv data converted,
        List.lookup "resource_type" r.attrs = some rt ∧
        List.lookup "id_" r.attrs = some idv ∧
        env.data rt idv = .ok data ∧
        loadConvertFields env data = .ok converted ∧
        attrs2 = pyDictUpdate r.attrs converted) := by
  constructor
  · intro e he
    simp only [pyGetattr, hl, hnl, he, Bool.false_eq_true, if_false]
  · intro attrs2 h2
    rw [namedAPIResourceLoad] at h2
    rcases hrt : List.lookup "resource_type" r.attrs with _ | rt
    · rw [hrt] at h2; exact Except.noConfusion h2
    rcases hid : List.lookup "id_" r.attrs with _ | idv
    · simp only [hrt, hid] at h2
      exact Except.noConfusion h2
    rcases hdata : env.data rt idv with e | data
    · simp only [hrt, hid, hdata] at h2
      exact Except.noConfusion h2
    rcases hconv : loadConvertFields env data with e | converted
    · simp only [hrt, hid, hdata, hconv] at h2
      exact Except.noConfusion h2
    simp only [hrt, hid, hdata, hconv, Except.ok.injEq] at h2
    exact ⟨rt, idv, data, converted, rfl, rfl, hdata, hconv, h2.symm⟩

/-- Witness for C10: under the environment whose `get_data` raises, the
access that would trigger the load returns that exception and the cheri
reference is returned unchanged, still unloaded. -/
theorem load_atomicity_witness :
    List.lookup "flavors" cheriRef.attrs = none ∧
    cheriRef.loaded = false ∧
    namedAPIResourceLoad bEnv cheriRef.attrs = .error (.external "data not fetched") ∧
    pyGetattr bEnv cheriRef "flavors" = (.error (.external "data not fetched"), cheriRef) := by
  refine ⟨rfl, rfl, rfl, ?_⟩
  exact (load_atomicity bEnv cheriRef "flavors" rfl rfl).1
    (.external "data not fetched") rfl

/-! ### Round trip through the resolver -/

/-- If every entry carries a canonical decimal id segment and the segments
are pairwise distinct, then the id found for a present name scans back to
the same name. -/
theorem roundtrip_aux (idx : List Entry)
    (hseg : ∀ e ∈ idx, ∃ s k, urlIdSegment e.url = some s ∧
        pyInt s = some k ∧ toString k = s)
    (hnodup : (idx.map fun e2 => urlIdSegment e2.url).Nodup)
    (nm : String) (hmem : ∃ e ∈ idx, e.name = some nm) :
    ∃ i e0, scanNameToId idx nm = .ok (some i) ∧ e0 ∈ idx ∧
      urlIdSegment e0.url = some (toString i) ∧
      scanIdToName idx i = .ok (some nm) := by
  induction idx with
  | nil =>
    rcases hmem with ⟨e, he, _⟩
    exact absurd he (List.not_mem_nil e)
  | cons e rest ih =>
    by_cases hname : e.name = some nm
    · obtain ⟨s, k, hs, hparse, hcanon⟩ := hseg e (List.mem_cons_self e rest)
      refine ⟨k, e, ?_, List.mem_cons_self e rest, ?_, ?_⟩
      · simp only [scanNameToId, hs, hparse]
        rw [if_pos hname]
      · rw [hs, hcanon]
      · simp only [scanIdToName, hs]
        rw [if_pos hcanon.symm, hname]
    · have hmem2 : ∃ e2 ∈ rest, e2.name = some nm := by
        rcases hmem with ⟨e2, he2, hn2⟩
        rcases List.mem_cons.mp he2 with h | h
        · exact absurd (h ▸ hn2) hname
        · exact ⟨e2, h, hn2⟩
      have hnodup0 : (e :: rest).map (fun e2 => urlIdSegment e2.url) =
          urlIdSegment e.url :: rest.map fun e2 => urlIdSegment e2.url :=
        List.map_cons ..
      rw [hnodup0, List.nodup_cons] at hnodup
      obtain ⟨i, e0, hscan, he0, hse0, hidscan⟩ :=
        ih (fun e2 h2 => hseg e2 (List.mem_cons_of_mem _ h2)) hnodup.2 hmem2
      obtain ⟨s, k, hs, hparse, hcanon⟩ := hseg e (List.mem_cons_self e rest)
      have hne : s ≠ toString i := by
        intro hcontra
        have hmemmap : urlIdSegment e.url ∈ rest.map fun e2 => urlIdSegment e2.url := by
          rw [hs, hcontra, ← hse0]
          exact List.mem_map_of_mem _ he0
        exact hnodup.1 hmemmap
      refine ⟨i, e0, ?_, List.mem_cons_of_mem _ he0, hse0, ?_⟩
      · simp only [scanNameToId]
        rw [if_neg hname]
        exact hscan
      · simp only [scanIdToName, hs]
        rw [if_neg hne]
        exact hidscan

/-- C6 counterexample: in the one-entry index with id segment "007" both
the names and the id segments are unique, yet resolving the name "a" gives
id 7 (Python `int("007")`), and resolving 7 back scans for the segment
"7", matches nothing, and yields a null name instead of "a". -/
theorem resolver_roundtrip_counterexample :
    (zeroPadIndex.map Entry.name).Nodup ∧
    (zeroPadIndex.map fun e2 => urlIdSegment e2.url).Nodup ∧
    name_id_convert zEnv "cat" (.inr "a") = .ok (some "a", some 7) ∧
    name_id_convert zEnv "cat" (.inl 7) = .ok (none, some 7) :=
  ⟨by decide, by decide, rfl, rfl⟩

/-- C6 (amended): for every category index with unique names and unique id
segments whose id segments are canonical decimal numerals, resolving a
present name to an id and that id back through the index recovers the
original name. -/
theorem resolver_roundtrip (env : Env) (t : String) (idx : List Entry)
    (c : Int) (hres : env.resource t = .ok ⟨idx, c⟩)
    (hnames : (idx.map Entry.name).Nodup)
    (hseg : ∀ e ∈ idx, ∃ s k, urlIdSegment e.url = some s ∧
        pyInt s = some k ∧ toString k = s)
    (hnodup : (idx.map fun e2 => urlIdSegment e2.url).Nodup)
    (nm : String) (hmem : ∃ e ∈ idx, e.name = some nm) :
    ∃ i, name_id_convert env t (.inr nm) = .ok (some nm, some i) ∧
      name_id_convert env t (.inl i) = .ok (some nm, some i) := by
  obtain ⟨i, e0, hscan, he0, hse0, hidscan⟩ := roundtrip_aux idx hseg hnodup nm hmem
  refine ⟨i, ?_, ?_⟩
  · simp only [name_id_convert, _convert_name_to_id, apiResourceListInit, hres, hscan]
  · simp only [name_id_convert, _convert_id_to_name, apiResourceListInit, hres, hidscan]

/-- Witness for the amended C6 at the berry scenario: "chesto" resolves to
2 and 2 resolves back to "chesto". -/
theorem resolver_roundtrip_witness :
    bEnv.resource "berry" = .ok ⟨berryIndex, 2⟩ ∧
    (berryIndex.map Entry.name).Nodup ∧
    (berryIndex.map fun e2 => urlIdSegment e2.url).Nodup ∧
    ∃ i, name_id_convert bEnv "berry" (.inr "chesto") = .ok (some "chesto", some i) ∧
      name_id_convert bEnv "berry" (.inl i) = .ok (some "chesto", some i) := by
  refine ⟨rfl, by decide, by decide, ?_⟩
  refine resolver_roundtrip bEnv "berry" berryIndex 2 rfl (by decide) ?_
    (by decide) "chesto" (by decide)
  intro e he
  rcases List.mem_cons.mp he with h | h2
  · exact ⟨"1", 1, by rw [h]; rfl, rfl, rfl⟩
  rcases List.mem_cons.mp h2 with h | h3
  · exact ⟨"2", 2, by rw [h]; rfl, rfl, rfl⟩
  · exact absurd h3 (List.not_mem_nil e)

/-! ### Metadata construction versus load conversion -/

/-- Inversion of one step of the `APIMetadata.__init__` conversion loop. -/
theorem convMetaFields_cons_inv (env : Env) (k0 : String) (v0 : JSON)
    (rest : List (String × JSON)) (cf : List (String × Value))
    (h : convMetaFields env ((k0, v0) :: rest) = .ok cf) :
    ∃ w0 cfr, cf = (k0, w0) :: cfr ∧ convMetaFields env rest = .ok cfr ∧
      ((∃ d0, v0 = JSON.dict d0 ∧ _make_obj env v0 = .ok w0) ∨
       (v0.isDict = false ∧ w0 = .json v0)) := by
  cases v0
  case dict d0 =>
    rcases hm : _make_obj env (.dict d0) with e | w0
    · simp only [convMetaFields, hm] at h
      exact Except.noConfusion h
    rcases hr : convMetaFields env rest with e | cfr
    · simp only [convMetaFields, hm, hr] at h
      exact Except.noConfusion h
    simp only [convMetaFields, hm, hr, Except.ok.injEq] at h
    exact ⟨w0, cfr, h.symm, rfl, Or.inl ⟨d0, rfl, rfl⟩⟩
  all_goals
    rcases hr : convMetaFields env rest with e | cfr
  all_goals
    simp only [convMetaFields, hr, Except.ok.injEq] at h
  any_goals exact Except.noConfusion h
  all_goals exact ⟨_, cfr, h.symm, rfl, Or.inr ⟨rfl, rfl⟩⟩

/-- Inversion of one step of the `_load` conversion loop. -/
theorem loadConvertFields_cons_inv (env : Env) (k0 : String) (v0 : JSON)
    (rest : List (String × JSON)) (lf : List (String × Value))
    (h : loadConvertFields env ((k0, v0) :: rest) = .ok lf) :
    ∃ w0 lfr, lf = (k0, w0) :: lfr ∧ loadConvertFields env rest = .ok lfr ∧
      ((∃ d0, v0 = JSON.dict d0 ∧ _make_obj env v0 = .ok w0) ∨
       (∃ xs ws, v0 = JSON.list xs ∧ makeObjList env xs = .ok ws ∧
          w0 = .vlist ws) ∨
       (v0.isDict = false ∧ (∀ xs, v0 ≠ JSON.list xs) ∧ w0 = .json v0)) := by
  cases v0
  case dict d0 =>
    rcases hm : _make_obj env (.dict d0) with e | w0
    · simp only [loadConvertFields, hm] at h
      exact Except.noConfusion h
    rcases hr : loadConvertFields env rest with e | lfr
    · simp only [loadConvertFields, hm, hr] at h
      exact Except.noConfusion h
    simp only [loadConvertFields, hm, hr, Except.ok.injEq] at h
    exact ⟨w0, lfr, h.symm, rfl, Or.inl ⟨d0, rfl, rfl⟩⟩
  case list xs =>
    rcases hm : makeObjList env xs with e | ws
    · simp only [loadConvertFields, hm] at h
      exact Except.noConfusion h
    rcases hr : loadConvertFields env rest with e | lfr
    · simp only [loadConvertFields, hm, hr] at h
      exact Except.noConfusion h
    simp only [loadConvertFields, hm, hr, Except.ok.injEq] at h
    exact ⟨.vlist ws, lfr, h.symm, rfl, Or.inr (Or.inl ⟨xs, ws, rfl, hm, rfl⟩)⟩
  all_goals
    rcases hr : loadConvertFields env rest with e | lfr
  all_goals
    simp only [loadConvertFields, hr, Except.ok.injEq] at h
  any_goals exact Except.noConfusion h
  all_goals exact ⟨_, lfr, h.symm, rfl,
    Or.inr (Or.inr ⟨rfl, fun xs hxs => JSON.noConfusion hxs, rfl⟩)⟩

/-- In metadata construction, list-valued fields come through unchanged. -/
theorem convMetaFields_list_mem (env : Env) :
    ∀ (fs : List (String × JSON)) (cf : List (String × Value)) (k : String)
      (xs : List JSON), convMetaFields env fs = .ok cf →
      (k, JSON.list xs) ∈ fs → (k, Value.json (.list xs)) ∈ cf := by
  intro fs
  induction fs with
  | nil =>
    intro cf k xs _ hm
    exact absurd hm (List.not_mem_nil _)
  | cons p rest ih =>
    intro cf k xs h hm
    obtain ⟨k0, v0⟩ := p
    obtain ⟨w0, cfr, hcf, hrest, hcase⟩ := convMetaFields_cons_inv env k0 v0 rest cf h
    subst hcf
    rcases List.mem_cons.mp hm with heq | hm2
    · injection heq with h1 h2
      subst h1
      subst h2
      rcases hcase with ⟨d0, hd, _⟩ | ⟨_, hw⟩
      · exact absurd hd (fun hh => JSON.noConfusion hh)
      · rw [hw]
        exact List.mem_cons_self _ _
    · exact List.mem_cons_of_mem _ (ih cfr k xs hrest hm2)

/-- In metadata construction, dict-valued fields go through `_make_obj`. -/
theorem convMetaFields_dict_mem (env : Env) :
    ∀ (fs : List (String × JSON)) (cf : List (String × Value)) (k : String)
      (d : List (String × JSON)), convMetaFields env fs = .ok cf →
      (k, JSON.dict d) ∈ fs →
      ∃ w, _make_obj env (.dict d) = .ok w ∧ (k, w) ∈ cf := by
  intro fs
  induction fs with
  | nil =>
    intro cf k d _ hm
    exact absurd hm (List.not_mem_nil _)
  | cons p rest ih =>
    intro cf k d h hm
    obtain ⟨k0, v0⟩ := p
    obtain ⟨w0, cfr, hcf, hrest, hcase⟩ := convMetaFields_cons_inv env k0 v0 rest cf h
    subst hcf
    rcases List.mem_cons.mp hm with heq | hm2
    · injection heq with h1 h2
      subst h1
      subst h2
      rcases hcase with ⟨d0, hd, hw⟩ | ⟨hnd, _⟩
      · exact ⟨w0, hw, List.mem_cons_self _ _⟩
      · exact absurd hnd (by simp [JSON.isDict])
    · obtain ⟨w, hw, hmem⟩ := ih cfr k d hrest hm2
      exact ⟨w, hw, List.mem_cons_of_mem _ hmem⟩

/-- In the load conversion, list-valued fields are converted element-wise. -/
theorem loadConvertFields_list_mem (env : Env) :
    ∀ (fs : List (String × JSON)) (lf : List (String × Value)) (k : String)
      (xs : List JSON), loadConvertFields env fs = .ok lf →
      (k, JSON.list xs) ∈ fs →
      ∃ ws, makeObjList env xs = .ok ws ∧ (k, Value.vlist ws) ∈ lf := by
  intro fs
  induction fs with
  | nil =>
    intro lf k xs _ hm
    exact absurd hm (List.not_mem_nil _)
  | cons p rest ih =>
    intro lf k xs h hm
    obtain ⟨k0, v0⟩ := p
    obtain ⟨w0, lfr, hlf, hrest, hcase⟩ := loadConvertFields_cons_inv env k0 v0 rest lf h
    subst hlf
    rcases List.mem_cons.mp hm with heq | hm2
    · injection heq with h1 h2
      subst h1
      subst h2
      rcases hcase with ⟨d0, hd, _⟩ | ⟨xs2, ws, hx, hmk, hw⟩ | ⟨_, hnl, _⟩
      · exact absurd hd (fun hh => JSON.noConfusion hh)
      · injection hx with hx2
        subst hx2
        exact ⟨ws, hmk, by rw [hw]; exact List.mem_cons_self _ _⟩
      · exact absurd rfl (hnl xs)
    · obtain ⟨ws, hmk, hmem⟩ := ih lfr k xs hrest hm2
      exact ⟨ws, hmk, List.mem_cons_of_mem _ hmem⟩

/-- In the load conversion, dict-valued fields go through `_make_obj`. -/
theorem loadConvertFields_dict_mem (env : Env) :
    ∀ (fs : List (String × JSON)) (lf : List (String × Value)) (k : String)
      (d : List (String × JSON)), loadConvertFields env fs = .ok lf →
      (k, JSON.dict d) ∈ fs →
      ∃ w, _make_obj env (.dict d) = .ok w ∧ (k, w) ∈ lf := by
  intro fs
  induction fs with
  | nil =>
    intro lf k d _ hm
    exact absurd hm (List.not_mem_nil _)
  | cons p rest ih =>
    intro lf k d h hm
    obtain ⟨k0, v0⟩ := p
    obtain ⟨w0, lfr, hlf, hrest, hcase⟩ := loadConvertFields_cons_inv env k0 v0 rest lf h
    subst hlf
    rcases List.mem_cons.mp hm with heq | hm2
    · injection heq with h1 h2
      subst h1
      subst h2
      rcases hcase with ⟨d0, hd, hw⟩ | ⟨xs2, ws, hx, _, _⟩ | ⟨hnd, _, _⟩
      · exact ⟨w0, hw, List.mem_cons_self _ _⟩
      · exact absurd hx (fun hh => JSON.noConfusion hh)
      · exact absurd hnd (by simp [JSON.isDict])
    · obtain ⟨w, hw, hmem⟩ := ih lfr k d hrest hm2
      exact ⟨w, hw, List.mem_cons_of_mem _ hmem⟩

/-- C8: for every raw payload, `APIMetadata.__init__` replaces dict-valued
fields via the Value Converter but keeps list-valued fields unchanged,
element conversion not applied, while the `_load` conversion loop replaces
dict-valued fields the same way and converts list-valued fields
element-wise. -/
theorem metadata_vs_load_conversion (env : Env) (fs : List (String × JSON))
    (k : String) :
    (∀ md xs, mkAPIMetadata env fs = .ok md → (k, JSON.list xs) ∈ fs →
        (k, Value.json (.list xs)) ∈ md.attrs) ∧
    (∀ md d, mkAPIMetadata env fs = .ok md → (k, JSON.dict d) ∈ fs →
        ∃ w, _make_obj env (.dict d) = .ok w ∧ (k, w) ∈ md.attrs) ∧
    (∀ lf xs, loadConvertFields env fs = .ok lf → (k, JSON.list xs) ∈ fs →
        ∃ ws, makeObjList env xs = .ok ws ∧ (k, Value.vlist ws) ∈ lf) ∧
    (∀ lf d, loadConvertFields env fs = .ok lf → (k, JSON.dict d) ∈ fs →
        ∃ w, _make_obj env (.dict d) = .ok w ∧ (k, w) ∈ lf) := by
  refine ⟨?_, ?_, ?_, ?_⟩
  · intro md xs h hm
    rcases hc : convMetaFields env fs with e | cf
    · rw [mkAPIMetadata, hc] at h
      exact Except.noConfusion h
    rw [mkAPIMetadata, hc] at h
    cases h
    exact convMetaFields_list_mem env fs cf k xs hc hm
  · intro md d h hm
    rcases hc : convMetaFields env fs with e | cf
    · rw [mkAPIMetadata, hc] at h
      exact Except.noConfusion h
    rw [mkAPIMetadata, hc] at h
    cases h
    exact convMetaFields_dict_mem env fs cf k d hc hm
  · intro lf xs h hm
    exact loadConvertFields_list_mem env fs lf k xs h hm
  · intro lf d h hm
    exact loadConvertFields_dict_mem env fs lf k d h hm

/-- Witness for C8 on a payload with one dict field and one list field. -/
theorem metadata_vs_load_conversion_witness :
    mkAPIMetadata bEnv metaFixture = .ok ⟨metaConverted⟩ ∧
    loadConvertFields bEnv metaFixture = .ok loadConverted ∧
    ("flavors", JSON.list [.num 1]) ∈ metaFixture ∧
    ("flavors", Value.json (.list [.num 1])) ∈ metaConverted ∧
    (∃ ws, makeObjList bEnv [JSON.num 1] = .ok ws ∧
      ("flavors", Value.vlist ws) ∈ loadConverted) ∧
    (∃ w, _make_obj bEnv (.dict [("name", .str "soft")]) = .ok w ∧
      ("firmness", w) ∈ metaConverted) := by
  have hmemfix : ("flavors", JSON.list [.num 1]) ∈ metaFixture :=
    List.mem_cons_of_mem _ (List.mem_cons_self _ _)
  refine ⟨rfl, rfl, hmemfix, ?_, ?_, ?_⟩
  · exact (metadata_vs_load_conversion bEnv metaFixture "flavors").1
      ⟨metaConverted⟩ [JSON.num 1] rfl hmemfix
  · exact (metadata_vs_load_conversion bEnv metaFixture "flavors").2.2.1
      loadConverted [JSON.num 1] rfl hmemfix
  · exact (metadata_vs_load_conversion bEnv metaFixture "firmness").2.1
      ⟨metaConverted⟩ [("name", JSON.str "soft")] rfl (List.mem_cons_self _ _)

/-! ### The Category Index -/

/-- C9 counterexample: an entry with a `name` but an empty url makes the
eagerly evaluated `[-2]` indexing raise, so the names sequence fails
instead of yielding the present name "x". -/
theorem names_eager_default_counterexample :
    (⟨"cat", [⟨some "x", ""⟩], 1⟩ : APIResourceList).namesSeq =
      .error .indexError ∧
    (⟨"cat", [⟨some "x", ""⟩], 1⟩ : APIResourceList).len = 1 :=
  ⟨rfl, rfl⟩

/-- The names loop on entries whose urls all have an id segment. -/
theorem namesSeq_go_wellformed :
    ∀ entries : List Entry, (∀ e ∈ entries, ∃ s, urlIdSegment e.url = some s) →
    ∃ ns, namesGo entries = .ok ns ∧
      ns.length = entries.length ∧
      ∀ j e, entries.get? j = some e →
        ∃ s, urlIdSegment e.url = some s ∧ ns.get? j = some (e.name.getD s) := by
  intro entries
  induction entries with
  | nil =>
    intro _
    refine ⟨[], rfl, rfl, ?_⟩
    intro j e hj
    cases j <;> exact Option.noConfusion hj
  | cons e rest ih =>
    intro h
    obtain ⟨s, hs⟩ := h e (List.mem_cons_self e rest)
    obtain ⟨ns, hgo, hlen, hpt⟩ := ih fun e2 h2 => h e2 (List.mem_cons_of_mem _ h2)
    refine ⟨e.name.getD s :: ns, ?_, by simp [hlen], ?_⟩
    · simp only [namesGo, hs, hgo]
    · intro j e2 hj
      cases j with
      | zero =>
        cases hj
        exact ⟨s, hs, rfl⟩
      | succ j2 => exact hpt j2 e2 hj

/-- C9 (amended): the length of a CategoryIndex is its reported `count`,
whatever entries were actually listed; and, provided every entry's url has
an id segment (the `.get` default is evaluated eagerly, so a short url
fails the whole yield even when a name is present), the names sequence
yields, for each entry in listing order, the entry's `name` field if
present, else the segment derived from its url. -/
theorem category_index_contract (rl : APIResourceList)
    (h : ∀ e ∈ rl.results, ∃ s, urlIdSegment e.url = some s) :
    rl.len = rl.count ∧
    (∀ results2 : List Entry,
        APIResourceList.len ⟨rl.name, results2, rl.count⟩ = rl.len) ∧
    ∃ ns, rl.namesSeq = .ok ns ∧ ns.length = rl.results.length ∧
      ∀ j e, rl.results.get? j = some e →
        ∃ s, urlIdSegment e.url = some s ∧ ns.get? j = some (e.name.getD s) :=
  ⟨rfl, fun _ => rfl, namesSeq_go_wellformed rl.results h⟩

/-- Witness for C9 at the berry scenario: the names come out as
`["cheri", "chesto"]` in listing order and the length is the count 2. -/
theorem category_index_contract_witness :
    (∀ e ∈ (⟨"berry", berryIndex, 2⟩ : APIResourceList).results,
        ∃ s, urlIdSegment e.url = some s) ∧
    (⟨"berry", berryIndex, 2⟩ : APIResourceList).len = 2 ∧
    (∀ results2 : List Entry,
        APIResourceList.len ⟨"berry", results2, 2⟩ = 2) ∧
    (⟨"berry", berryIndex, 2⟩ : APIResourceList).namesSeq =
      .ok ["cheri", "chesto"] := by
  have hh : ∀ e ∈ (⟨"berry", berryIndex, 2⟩ : APIResourceList).results,
      ∃ s, urlIdSegment e.url = some s := by
    intro e he
    rcases List.mem_cons.mp he with h | h2
    · exact ⟨"1", by rw [h]; rfl⟩
    rcases List.mem_cons.mp h2 with h | h3
    · exact ⟨"2", by rw [h]; rfl⟩
    · exact absurd h3 (List.not_mem_nil e)
  refine ⟨hh, (category_index_contract ⟨"berry", berryIndex, 2⟩ hh).1,
    (category_index_contract ⟨"berry", berryIndex, 2⟩ hh).2.1, rfl⟩
